import Mathlib

/-!
Shallow embedding of `src/server/world/generators/minecraft.rs` (the
Minecraft Anvil import stage of the voxelize server) and proofs about it.

Conventions of the embedding:
* Rust machine integers are modelled as `Nat`/`Int`; two's-complement
  wrapping is written explicitly (`% 2 ^ 32`, `% 2 ^ 128`) at the points
  where the Rust code performs fixed-width arithmetic whose overflow can
  be observed.
* `i64` words of the packed block-state arrays are carried as `Int`
  values; the Rust cast `as u128` (which sign-extends) is modelled as the
  two's-complement residue `% 2 ^ 128`.
* Fallible operations return `Option`.
* File contents are byte lists; the gzip and zlib decompressors and the
  NBT parser come from external crates, so they are abstract parameters
  of the embedding.
-/

/-- Embeds the constant `REGION_SIZE: i32 = 32`. -/
def REGION_SIZE : Int := 32

/-- Embeds the constant `SECTION_VOLUME: usize = 16 * 16 * 16`. -/
def SECTION_VOLUME : Nat := 16 * 16 * 16

/-- Two's-complement wrap of an out-of-range value into `i32`, modelling
the release-mode behaviour of Rust `i32` arithmetic on overflow. -/
def wrap32 (x : Int) : Int :=
  (x + 2 ^ 31) % 2 ^ 32 - 2 ^ 31

/-- Rust's `/` on `i32` with a positive divisor: division truncating
toward zero, expressed through Euclidean division. -/
def i32_div_trunc (a b : Int) : Int :=
  if 0 ≤ a then a / b else -((-a) / b)

/-- Rust's remainder `%` on `i32` with a positive divisor (sign follows
the dividend), derived from the truncating division. -/
def i32_rem_trunc (a b : Int) : Int :=
  a - b * i32_div_trunc a b

/-- Embeds `split_region_coord` (minecraft.rs, lines 377-387): splits a
chunk coordinate into a region coordinate and a local coordinate. The
intermediate `value + 1 - REGION_SIZE` is wrapped to `i32`, as the Rust
subtraction would wrap (release mode) for values near `i32::MIN`. -/
def split_region_coord (value : Int) : Int × Int :=
  let region :=
    if 0 ≤ value then i32_div_trunc value REGION_SIZE
    else i32_div_trunc (wrap32 (value + 1 - REGION_SIZE)) REGION_SIZE
  let loc := wrap32 (value - wrap32 (region * REGION_SIZE))
  (region, i32_rem_trunc (i32_rem_trunc loc REGION_SIZE + REGION_SIZE) REGION_SIZE)

/-- Fueled form of the bit-counting loop of `bits_for_palette`
(`while value > 0 { bits += 1; value >>= 1 }`); the fuel only serves to
make the recursion structural, `bit_len` below supplies enough of it. -/
def bit_len_aux : Nat → Nat → Nat
  | 0, _ => 0
  | fuel + 1, v => if v = 0 then 0 else bit_len_aux fuel (v / 2) + 1

/-- Number of binary digits of `v`, as computed by the loop in
`bits_for_palette`. -/
def bit_len (v : Nat) : Nat :=
  bit_len_aux v v

/-- Embeds `bits_for_palette` (minecraft.rs, lines 365-375): the bit
width used for packed palette indices. -/
def bits_for_palette (palette_len : Nat) : Nat :=
  (bit_len (palette_len - 1)).max 4

/-- The Rust cast `*value as u128` applied to an `i64`: two's-complement
sign extension into 128 bits, i.e. the residue of the value mod `2^128`. -/
def i64_as_u128 (w : Int) : Nat :=
  (w % (2 ^ 128 : Int)).toNat

/-- Embeds the inner `while bits_in_acc < bits` loop of
`decode_block_states`: pull 64-bit words into the accumulator until at
least `bits` bits are buffered; `none` models the truncated-stream exit
(the `else` branch that zero-fills and returns). -/
def pull_words (bits : Nat) (acc bits_in_acc : Nat) :
    List Int → Option (Nat × Nat × List Int)
  | [] => if bits ≤ bits_in_acc then some (acc, bits_in_acc, []) else none
  | w :: rest =>
    if bits ≤ bits_in_acc then some (acc, bits_in_acc, w :: rest)
    else
      pull_words bits ((acc ||| (i64_as_u128 w <<< bits_in_acc)) % 2 ^ 128)
        (bits_in_acc + 64) rest

/-- Embeds the outer `for _ in 0..SECTION_VOLUME` loop of
`decode_block_states`; `n` counts the indices still to produce. On a
truncated stream the remaining entries are zero-filled, mirroring
`indices.resize(SECTION_VOLUME, 0)`. -/
def decode_loop (bits mask : Nat) : Nat → List Int → Nat → Nat → List Nat
  | 0, _, _, _ => []
  | n + 1, words, acc, bits_in_acc =>
    match pull_words bits acc bits_in_acc words with
    | none => List.replicate (n + 1) 0
    | some (acc2, bia2, rest) =>
      (acc2 &&& mask) :: decode_loop bits mask n rest (acc2 >>> bits) (bia2 - bits)

/-- Embeds `decode_block_states` (minecraft.rs, lines 327-363): decodes
`SECTION_VOLUME` palette indices from a list of 64-bit words. -/
def decode_block_states (data : List Int) (palette_len : Nat) : List Nat :=
  if palette_len ≤ 1 then List.replicate SECTION_VOLUME 0
  else if data = [] then List.replicate SECTION_VOLUME 0
  else
    let bits := bits_for_palette palette_len
    let mask := 2 ^ bits - 1
    decode_loop bits mask SECTION_VOLUME data 0 0

/-- Ceiling base-2 logarithm in a kernel-computable form (for `n ≥ 2`
it is the least `b` with `n ≤ 2 ^ b`); `ceil_log2_eq_clog` below
certifies it against Mathlib's `Nat.clog`. -/
def ceil_log2 (n : Nat) : Nat :=
  bit_len (n - 1)

/-- The unsigned 64-bit pattern of an `i64` word. -/
def i64_as_u64 (w : Int) : Nat :=
  (w % (2 ^ 64 : Int)).toNat

/-- The continuous least-significant-bit-first bitstream named by the
spec: successive 64-bit word patterns concatenated without padding, as a
single natural number (word `k` occupies bits `64*k .. 64*k+63`). -/
def word_stream : List Int → Nat
  | [] => 0
  | w :: rest => i64_as_u64 w + 2 ^ 64 * word_stream rest

/-- Reference decoder written from the spec's words (spec.md §4.4): for
`L ≤ 1` all indices are 0; otherwise index `i` is the `i`-th group of
`b` bits of the continuous bitstream, masked to `b` bits, and 0 once the
stream is exhausted (a partial trailing group yields no index). -/
def spec_decode_block_states (data : List Int) (palette_len : Nat) : List Nat :=
  if palette_len ≤ 1 then List.replicate SECTION_VOLUME 0
  else
    let b := Nat.max 4 (ceil_log2 palette_len)
    let mask := 2 ^ b - 1
    (List.range SECTION_VOLUME).map fun i =>
      if (i + 1) * b ≤ 64 * data.length then (word_stream data >>> (i * b)) &&& mask
      else 0

/-- Packs indices at width `b` into a single bitstream value (index `i`
at bits `i*b .. i*b+b-1`). -/
def idx_stream (b : Nat) : List Nat → Nat
  | [] => 0
  | i :: rest => (i &&& (2 ^ b - 1)) + 2 ^ b * idx_stream b rest

/-- Reinterpret an unsigned 64-bit pattern as an `i64` value. -/
def u64_to_i64 (n : Nat) : Int :=
  if n < 2 ^ 63 then (n : Int) else (n : Int) - 2 ^ 64

/-- Modelled from the spec: the test-harness encoding helper of spec.md
§8 is not part of src/; it packs an index sequence at bit width `b` into
64-bit words as one continuous least-significant-bit-first bitstream
(the inverse direction of the Packed-Index Codec). -/
def encode_words (b : Nat) (idxs : List Nat) : List Int :=
  let total := idxs.length * b
  let nwords := (total + 63) / 64
  (List.range nwords).map fun k =>
    u64_to_i64 ((idx_stream b idxs >>> (64 * k)) &&& (2 ^ 64 - 1))

/-- The fueled bit-counting loop, with enough fuel, computes the binary
length: `bit_len_aux fuel v ≤ b` iff `v < 2 ^ b`. -/
theorem bit_len_aux_le_iff (fuel : Nat) :
    ∀ v b : Nat, v ≤ fuel → (bit_len_aux fuel v ≤ b ↔ v < 2 ^ b) := by
  induction fuel with
  | zero =>
    intro v b hv
    have : v = 0 := Nat.le_zero.mp hv
    subst this
    have hp := pow_pos (show (0 : Nat) < 2 by norm_num) b
    simp [bit_len_aux]
  | succ fuel ih =>
    intro v b hv
    by_cases h0 : v = 0
    · subst h0
      have hp := pow_pos (show (0 : Nat) < 2 by norm_num) b
      simp [bit_len_aux]
    · have hvpos : 0 < v := Nat.pos_of_ne_zero h0
      have hdiv : v / 2 ≤ fuel := by
        have : v / 2 < v := Nat.div_lt_self hvpos (by norm_num)
        omega
      rw [bit_len_aux]
      simp only [h0, if_false]
      cases b with
      | zero =>
        constructor
        · intro h
          exact absurd h (by omega)
        · intro h
          have : v < 1 := by simpa using h
          omega
      | succ b =>
        rw [Nat.succ_le_succ_iff, ih (v / 2) b hdiv, pow_succ]
        rw [Nat.div_lt_iff_lt_mul (by norm_num : 0 < 2)]

/-- `bit_len` agrees with the binary-length characterization. -/
theorem bit_len_le_iff (v b : Nat) : bit_len v ≤ b ↔ v < 2 ^ b :=
  bit_len_aux_le_iff v v b le_rfl

/-- The computable ceiling log matches Mathlib's `Nat.clog 2`. -/
theorem ceil_log2_eq_clog (n : Nat) : ceil_log2 n = Nat.clog 2 n := by
  by_cases h1 : n ≤ 1
  · interval_cases n
    · simp [ceil_log2, bit_len, bit_len_aux, Nat.clog]
    · simp [ceil_log2, bit_len, bit_len_aux, Nat.clog]
  · push_neg at h1
    have hc : ∀ b : Nat, Nat.clog 2 n ≤ b ↔ n ≤ 2 ^ b := by
      intro b
      exact (Nat.le_pow_iff_clog_le (by norm_num)).symm
    have hb : ∀ b : Nat, ceil_log2 n ≤ b ↔ n ≤ 2 ^ b := by
      intro b
      rw [ceil_log2, bit_len_le_iff]
      omega
    apply Nat.le_antisymm
    · exact (hb _).mpr ((hc _).mp le_rfl)
    · exact (hc _).mpr ((hb _).mp le_rfl)

/-- C2: for every palette length `L ≥ 2`, the bit width used by the
packed-index codec equals `max(4, ceil(log2 L))`; in particular it is 5
for `L = 17` and 4 for `L = 16`. -/
theorem bits_for_palette_eq_max_four_clog :
    (∀ L : Nat, 2 ≤ L → bits_for_palette L = Nat.max 4 (Nat.clog 2 L)) ∧
      bits_for_palette 17 = 5 ∧ bits_for_palette 16 = 4 := by
  refine ⟨fun L _ => ?_, by decide, by decide⟩
  have h := ceil_log2_eq_clog L
  rw [ceil_log2] at h
  rw [bits_for_palette, h]
  exact Nat.max_comm _ _

/-- C2 witness: the general width formula instantiated at `L = 17`. -/
theorem bits_for_palette_eq_max_four_clog_witness :
    bits_for_palette 17 = Nat.max 4 (Nat.clog 2 17) :=
  bits_for_palette_eq_max_four_clog.1 17 (by decide)

set_option maxRecDepth 1000000

/-- C1: the decoder diverges from the spec's reference bitstream
function. On words `[-1, 0]` with palette length 16 (width 4) the
spec's bitstream has zeros in bits 64..127, so index 16 must be 0; the
code's `as u128` cast sign-extends the word `-1`, leaving stale one bits
in the accumulator, and returns 15 at index 16. -/
theorem decode_sign_extension_divergence :
    (decode_block_states [-1, 0] 16).getD 16 999 = 15 ∧
      (spec_decode_block_states [-1, 0] 16).getD 16 999 = 0 ∧
      decode_block_states [-1, 0] 16 ≠ spec_decode_block_states [-1, 0] 16 := by
  refine ⟨by decide, by decide, fun h => ?_⟩
  have h15 : (decode_block_states [-1, 0] 16).getD 16 999 = 15 := by decide
  have h0 : (spec_decode_block_states [-1, 0] 16).getD 16 999 = 0 := by decide
  rw [h] at h15
  rw [h15] at h0
  exact absurd h0 (by decide)

/-- C6: the encode-then-decode round trip fails. Encoding the width-4
index sequence `[15 × 16, 0]` yields the words `[-1, 0]`; decoding them
with palette length 16 (computed width 4) returns 15 at position 16
where the original sequence has 0, again because of the sign-extending
`as u128` cast on negative words. -/
theorem decode_encode_roundtrip_divergence :
    encode_words 4 (List.replicate 16 15 ++ [0]) = [-1, 0] ∧
      bits_for_palette 16 = 4 ∧
      (decode_block_states (encode_words 4 (List.replicate 16 15 ++ [0])) 16).getD 16 999
        = 15 ∧
      (List.replicate 16 15 ++ [0] : List Nat).getD 16 999 = 0 := by
  refine ⟨by decide, by decide, by decide, by decide⟩

/-- C7 counterexample: at the chunk coordinate `-2^31` (`i32::MIN`) the
intermediate `value + 1 - REGION_SIZE` overflows `i32`; the wrapped
arithmetic returns region `67108863`, not the floor `-67108864`, so the
claim's "every signed 32-bit chunk coordinate" fails at this input. -/
theorem split_region_coord_int_min_counterexample :
    split_region_coord (-(2 ^ 31)) = (67108863, 0) ∧
      (-(2 ^ 31) : Int) / 32 = -67108864 ∧
      (split_region_coord (-(2 ^ 31))).1 ≠ (-(2 ^ 31) : Int) / 32 := by
  refine ⟨by decide, by decide, by decide⟩

/-- C7 amended: for every signed 32-bit chunk coordinate `v` whose
intermediate `v + 1 - 32` does not underflow `i32` (that is,
`-2^31 + 31 ≤ v < 2^31`), `split_region_coord` returns the true floor
quotient `⌊v / 32⌋` and the local remainder `v - 32 * ⌊v / 32⌋`, which
lies in `[0, 32)`. -/
theorem split_region_coord_floor_div (v : Int)
    (h1 : -(2 ^ 31) + 31 ≤ v) (h2 : v < 2 ^ 31) :
    split_region_coord v = (v / 32, v - 32 * (v / 32)) ∧
      0 ≤ v - 32 * (v / 32) ∧ v - 32 * (v / 32) < 32 := by
  simp only [split_region_coord, i32_div_trunc, i32_rem_trunc, wrap32, REGION_SIZE,
    Prod.mk.injEq]
  split_ifs <;> constructor <;> try constructor
  all_goals omega

/-- C7 witness: the amended theorem instantiated at `v = -33`, which
gives region `-2` and local `31`. -/
theorem split_region_coord_floor_div_witness :
    split_region_coord (-33) = ((-33 : Int) / 32, -33 - 32 * ((-33 : Int) / 32)) ∧
      0 ≤ -33 - 32 * ((-33 : Int) / 32) ∧ -33 - 32 * ((-33 : Int) / 32) < 32 :=
  split_region_coord_floor_div (-33) (by decide) (by decide)

/-- Embeds `RawPaletteEntry` (minecraft.rs, lines 105-109): one palette
entry, carrying the block `Name`. -/
structure RawPaletteEntry where
  name : String
deriving DecidableEq

/-- Embeds `RawSection` (minecraft.rs, lines 73-89): `y` is the signed
8-bit section index, the palette and the packed 64-bit words each come
in a modern lowercase and a legacy capitalized serialized key. -/
structure RawSection where
  y : Int
  block_states : Option (List Int)
  block_states_upper : Option (List Int)
  palette : Option (List RawPaletteEntry)
  palette_upper : Option (List RawPaletteEntry)
deriving DecidableEq

/-- Embeds `RawSection::palette` (minecraft.rs, lines 92-96): the
lowercase `palette` field, else the capitalized `Palette` field. -/
def RawSection.palette_entries (s : RawSection) : Option (List RawPaletteEntry) :=
  s.palette.or s.palette_upper

/-- Embeds `RawSection::block_states` (minecraft.rs, lines 98-102): the
lowercase `block_states` field, else the capitalized `BlockStates`. -/
def RawSection.block_state_words (s : RawSection) : Option (List Int) :=
  s.block_states.or s.block_states_upper

/-- Embeds `RawChunkLevel` (minecraft.rs, lines 50-57): the legacy
`Level` wrapper object; note the field order of the source, the
capitalized `Sections` key is declared (and below tried) first. -/
structure RawChunkLevel where
  sections_upper : Option (List RawSection)
  sections_lower : Option (List RawSection)
deriving DecidableEq

/-- Embeds `RawChunkLevel::into_sections` (minecraft.rs, lines 59-71):
inside the `Level` wrapper the capitalized `Sections` key is tried
first, then lowercase `sections`, else empty. -/
def RawChunkLevel.into_sections (level : RawChunkLevel) : List RawSection :=
  match level.sections_upper with
  | some sections => sections
  | none =>
    match level.sections_lower with
    | some sections => sections
    | none => []

/-- Embeds `RawChunk` (minecraft.rs, lines 20-30): the parsed chunk
record, with an optional legacy `Level` wrapper and top-level section
lists under the lowercase `sections` and capitalized `Sections` keys. -/
structure RawChunk where
  level : Option RawChunkLevel
  sections_lower : Option (List RawSection)
  sections_upper : Option (List RawSection)
deriving DecidableEq

/-- Embeds `RawChunk::into_sections` (minecraft.rs, lines 32-48): a
present `Level` wrapper wins; otherwise the lowercase `sections` key,
then the capitalized `Sections` key, then empty. -/
def RawChunk.into_sections (chunk : RawChunk) : List RawSection :=
  match chunk.level with
  | some level => level.into_sections
  | none =>
    match chunk.sections_lower with
    | some sections => sections
    | none =>
      match chunk.sections_upper with
      | some sections => sections
      | none => []

/-- The resolution order exactly as claim C3 words it: inside the
`Level` wrapper the modern lowercase key would be tried BEFORE the
legacy capitalized one. -/
def into_sections_claimed (chunk : RawChunk) : List RawSection :=
  match chunk.level with
  | some level =>
    match level.sections_lower with
    | some sections => sections
    | none =>
      match level.sections_upper with
      | some sections => sections
      | none => []
  | none =>
    match chunk.sections_lower with
    | some sections => sections
    | none =>
      match chunk.sections_upper with
      | some sections => sections
      | none => []

/-- The amended resolution order: identical to claim C3 except that
inside the `Level` wrapper the legacy capitalized key is tried first,
then the modern lowercase one. -/
def into_sections_amended (chunk : RawChunk) : List RawSection :=
  match chunk.level with
  | some level =>
    match level.sections_upper with
    | some sections => sections
    | none =>
      match level.sections_lower with
      | some sections => sections
      | none => []
  | none =>
    match chunk.sections_lower with
    | some sections => sections
    | none =>
      match chunk.sections_upper with
      | some sections => sections
      | none => []

/-- A section value used only to tell the two orders apart. -/
def sample_section (i : Int) : RawSection :=
  { y := i, block_states := none, block_states_upper := none,
    palette := none, palette_upper := none }

/-- C3 counterexample: on a record whose `Level` wrapper holds both
section keys, the code returns the capitalized `Sections` list while
the claimed order returns the lowercase `sections` list. -/
theorem into_sections_level_order_counterexample :
    RawChunk.into_sections
        { level := some { sections_upper := some [sample_section 0],
                          sections_lower := some [sample_section 1] },
          sections_lower := none, sections_upper := none }
      = [sample_section 0] ∧
      into_sections_claimed
          { level := some { sections_upper := some [sample_section 0],
                            sections_lower := some [sample_section 1] },
            sections_lower := none, sections_upper := none }
        = [sample_section 1] ∧
      RawChunk.into_sections
          { level := some { sections_upper := some [sample_section 0],
                            sections_lower := some [sample_section 1] },
            sections_lower := none, sections_upper := none }
        ≠ into_sections_claimed
          { level := some { sections_upper := some [sample_section 0],
                            sections_lower := some [sample_section 1] },
            sections_lower := none, sections_upper := none } := by
  refine ⟨by decide, by decide, by decide⟩

/-- C3 amended: the sections list is resolved as the claim states,
except that inside the legacy `Level` wrapper the capitalized legacy
key is tried before the modern lowercase one. -/
theorem into_sections_resolution_order (chunk : RawChunk) :
    RawChunk.into_sections chunk = into_sections_amended chunk := by
  rcases chunk with ⟨level, lower, upper⟩
  cases level with
  | some lv =>
    rcases lv with ⟨lu, ll⟩
    cases lu <;> cases ll <;> rfl
  | none => cases lower <;> cases upper <;> rfl

/-- Models Rust's `str::to_lowercase` on the ASCII block names this
stage handles: lowercases every character. -/
def to_lowercase (s : String) : String :=
  String.mk (s.data.map Char.toLower)

/-- The tail after the first `:` of a character list, or `none` when no
`:` occurs. -/
def after_first_colon : List Char → Option (List Char)
  | [] => none
  | c :: rest => if c = ':' then some rest else after_first_colon rest

/-- Models `mc_name.split_once(':')` restricted to its second component:
the substring after the first `:`. -/
def split_once_colon (s : String) : Option String :=
  (after_first_colon s.data).map String.mk

/-- The host `Registry` as consumed by the stage: only its name-indexed
block lookup (`blocks_by_name`, yielding the block id) is used. -/
structure Registry where
  blocks_by_name : String → Option Nat

/-- Embeds the configuration fields of `MinecraftAnvilStage`
(minecraft.rs, lines 111-117) that the resolver and the import loop
read: the override `mapping` (keys already lowercased by
`with_mapping`), the `default_block` id and the vertical `y_offset`.
The `resolved` cache is threaded explicitly as a value, and the world
path is replaced by the abstract file argument of `load_chunk`. -/
structure MinecraftAnvilStage where
  mapping : String → Option String
  default_block : Nat
  y_offset : Int

/-- Embeds `MinecraftAnvilStage::resolve_block_id` (minecraft.rs,
lines 148-184), with the `resolved` cache passed in and returned
(an association list looked up by exact name, newest entry first, which
is observationally the `HashMap` of the source). -/
def resolve_block_id (stage : MinecraftAnvilStage) (registry : Registry)
    (cache : List (String × Nat)) (mc_name : String) : Nat × List (String × Nat) :=
  if mc_name = "minecraft:air" then (0, cache)
  else
    match cache.lookup mc_name with
    | some id => (id, cache)
    | none =>
      let mapped_name :=
        match stage.mapping (to_lowercase mc_name) with
        | some name => some name
        | none =>
          match split_once_colon mc_name with
          | some name => some name
          | none => none
      let block_id :=
        match mapped_name with
        | some name => (registry.blocks_by_name (to_lowercase name)).getD stage.default_block
        | none => stage.default_block
      (block_id, (mc_name, block_id) :: cache)

/-- The id claim C5 prescribes for an uncached non-air name: the
registry id of the override target (lowercased) when an override entry
for the lowercased input exists, else the registry id of the substring
after the first `:` (lowercased), with the configured default id
whenever the registry lookup misses or no target name exists. -/
def claimed_resolved_id (stage : MinecraftAnvilStage) (registry : Registry)
    (mc_name : String) : Nat :=
  match stage.mapping (to_lowercase mc_name) with
  | some target => (registry.blocks_by_name (to_lowercase target)).getD stage.default_block
  | none =>
    match split_once_colon mc_name with
    | some target => (registry.blocks_by_name (to_lowercase target)).getD stage.default_block
    | none => stage.default_block

/-- The non-sentinel path of the resolver, as spec steps 2-5 word it:
consult the cache under the exact name; on a miss compute the id from
the override table or the namespace tail and insert it under the exact
input name. -/
def resolve_nonsentinel (stage : MinecraftAnvilStage) (registry : Registry)
    (cache : List (String × Nat)) (mc_name : String) : Nat × List (String × Nat) :=
  match cache.lookup mc_name with
  | some id => (id, cache)
  | none =>
    (claimed_resolved_id stage registry mc_name,
      (mc_name, claimed_resolved_id stage registry mc_name) :: cache)

/-- C4: resolving `"minecraft:air"` returns 0 immediately with the cache
unchanged, for every override mapping, registry and cache state — so the
sentinel branch reads nothing and writes nothing. -/
theorem resolve_block_id_air_sentinel (stage : MinecraftAnvilStage)
    (registry : Registry) (cache : List (String × Nat)) :
    resolve_block_id stage registry cache "minecraft:air" = (0, cache) := by
  rfl

/-- C5: for every non-air name missing from the cache, the resolver
returns exactly the claimed id (override target first, then namespace
tail, default on any miss) and stores it in the cache under the exact
input name. -/
theorem resolve_block_id_uncached_spec (stage : MinecraftAnvilStage)
    (registry : Registry) (cache : List (String × Nat)) (mc_name : String)
    (hair : mc_name ≠ "minecraft:air") (hmiss : cache.lookup mc_name = none) :
    resolve_block_id stage registry cache mc_name =
      (claimed_resolved_id stage registry mc_name,
        (mc_name, claimed_resolved_id stage registry mc_name) :: cache) := by
  rw [resolve_block_id, if_neg hair, hmiss]
  rw [claimed_resolved_id]
  cases stage.mapping (to_lowercase mc_name) with
  | some target => rfl
  | none => cases split_once_colon mc_name with
    | some target => rfl
    | none => rfl

/-- C5 witness: with an empty cache, an override sending
`minecraft:stone` to `Stone` and a registry holding `stone` at id 5,
resolving `minecraft:stone` yields 5 and caches it. -/
theorem resolve_block_id_uncached_spec_witness :
    resolve_block_id
        { mapping := fun k => if k = "minecraft:stone" then some "Stone" else none,
          default_block := 9, y_offset := 0 }
        { blocks_by_name := fun k => if k = "stone" then some 5 else none }
        [] "minecraft:stone" =
      (claimed_resolved_id
          { mapping := fun k => if k = "minecraft:stone" then some "Stone" else none,
            default_block := 9, y_offset := 0 }
          { blocks_by_name := fun k => if k = "stone" then some 5 else none }
          "minecraft:stone",
        ("minecraft:stone",
          claimed_resolved_id
            { mapping := fun k => if k = "minecraft:stone" then some "Stone" else none,
              default_block := 9, y_offset := 0 }
            { blocks_by_name := fun k => if k = "stone" then some 5 else none }
            "minecraft:stone") :: []) :=
  resolve_block_id_uncached_spec _ _ [] "minecraft:stone" (by decide) (by decide)

/-- C10: the air sentinel is an exact, case-sensitive comparison: every
name equal to `minecraft:air` only up to letter case takes the normal
cache/override/namespace-tail path, including the cache insertion, and
in particular `Minecraft:Air` can resolve to a non-zero id. -/
theorem resolve_block_id_air_case_sensitive :
    (∀ (stage : MinecraftAnvilStage) (registry : Registry)
        (cache : List (String × Nat)) (mc_name : String),
        to_lowercase mc_name = "minecraft:air" → mc_name ≠ "minecraft:air" →
        resolve_block_id stage registry cache mc_name =
          resolve_nonsentinel stage registry cache mc_name) ∧
      resolve_block_id
          { mapping := fun _ => none, default_block := 9, y_offset := 0 }
          { blocks_by_name := fun k => if k = "air" then some 7 else none }
          [] "Minecraft:Air" =
        (7, [("Minecraft:Air", 7)]) := by
  constructor
  · intro stage registry cache mc_name _ hne
    rw [resolve_block_id, if_neg hne, resolve_nonsentinel]
    cases cache.lookup mc_name with
    | some id => rfl
    | none =>
      rw [claimed_resolved_id]
      cases stage.mapping (to_lowercase mc_name) with
      | some target => rfl
      | none => cases split_once_colon mc_name with
        | some target => rfl
        | none => rfl
  · decide

/-- C10 witness: the case-sensitivity theorem instantiated at
`Minecraft:Air` with an empty cache. -/
theorem resolve_block_id_air_case_sensitive_witness :
    resolve_block_id
        { mapping := fun _ => none, default_block := 9, y_offset := 0 }
        { blocks_by_name := fun k => if k = "air" then some 7 else none }
        [] "Minecraft:Air" =
      resolve_nonsentinel
        { mapping := fun _ => none, default_block := 9, y_offset := 0 }
        { blocks_by_name := fun k => if k = "air" then some 7 else none }
        [] "Minecraft:Air" :=
  resolve_block_id_air_case_sensitive.1 _ _ [] "Minecraft:Air" (by decide) (by decide)

/-- One voxel write performed through `chunk.set_voxel`. -/
structure VoxelWrite where
  x : Int
  y : Int
  z : Int
  id : Nat
deriving DecidableEq

/-- The host `Chunk` as consumed by the stage: chunk coordinates, the
minimum world-space corner, and the voxels written so far (`set_voxel`
is modelled as prepending to this write log). -/
structure Chunk where
  coords : Int × Int
  min : Int × Int × Int
  voxels : List VoxelWrite
deriving DecidableEq

/-- Models `chunk.set_voxel(vx, vy, vz, block_id)`. -/
def Chunk.set_voxel (c : Chunk) (w : VoxelWrite) : Chunk :=
  { c with voxels := w :: c.voxels }

/-- Applies a list of voxel writes to a chunk in order. -/
def apply_writes (c : Chunk) : List VoxelWrite → Chunk
  | [] => c
  | w :: rest => apply_writes (c.set_voxel w) rest

/-- Embeds the palette-resolution loop of `process` (minecraft.rs,
lines 283-286): resolve every palette name in order, threading the
resolver cache. -/
def resolve_palette (stage : MinecraftAnvilStage) (registry : Registry)
    (cache : List (String × Nat)) :
    List RawPaletteEntry → List Nat × List (String × Nat)
  | [] => ([], cache)
  | entry :: rest =>
    let r := resolve_block_id stage registry cache entry.name
    let rec_rest := resolve_palette stage registry r.2 rest
    (r.1 :: rec_rest.1, rec_rest.2)

/-- Embeds `base_y = section_y * 16 + y_offset` (minecraft.rs,
line 277). -/
def section_base_y (stage : MinecraftAnvilStage) (s : RawSection) : Int :=
  s.y * 16 + stage.y_offset

/-- Embeds the per-index body of the voxel loop (minecraft.rs,
lines 295-320): skip out-of-range palette indices, air ids and heights
outside `[0, max_height)`, otherwise emit one voxel write. -/
def write_of_index (max_height chunk_min_x chunk_min_z base_y : Int)
    (palette_ids : List Nat) (p : Nat × Nat) : Option VoxelWrite :=
  match palette_ids.get? p.2 with
  | none => none
  | some block_id =>
    if block_id = 0 then none
    else
      let local_x : Int := ((p.1 &&& 0xF : Nat) : Int)
      let local_z : Int := (((p.1 >>> 4) &&& 0xF : Nat) : Int)
      let local_y : Int := ((p.1 >>> 8 : Nat) : Int)
      let vy := base_y + local_y
      if vy < 0 ∨ max_height ≤ vy then none
      else some { x := chunk_min_x + local_x, y := vy, z := chunk_min_z + local_z,
                  id := block_id }

/-- Embeds one iteration of the section loop of `process` (minecraft.rs,
lines 270-321): the writes this section emits and the resolver cache it
leaves behind. Sections without a (non-empty) palette and sections
culled by the vertical bounds check emit nothing. -/
def process_section (stage : MinecraftAnvilStage) (registry : Registry)
    (max_height chunk_min_x chunk_min_z : Int) (cache : List (String × Nat))
    (s : RawSection) : List VoxelWrite × List (String × Nat) :=
  match s.palette_entries with
  | none => ([], cache)
  | some palette =>
    if palette = [] then ([], cache)
    else
      let base_y := section_base_y stage s
      if max_height ≤ base_y ∨ base_y + 15 < 0 then ([], cache)
      else
        let resolved := resolve_palette stage registry cache palette
        if resolved.1 = [] then ([], resolved.2)
        else
          let block_states := s.block_state_words.getD []
          let indices := decode_block_states block_states resolved.1.length
          (indices.enum.filterMap
              (write_of_index max_height chunk_min_x chunk_min_z base_y resolved.1),
            resolved.2)

/-- Embeds the `for section in sections` loop of `process`: fold the
per-section writes into the chunk, threading the resolver cache. -/
def run_sections (stage : MinecraftAnvilStage) (registry : Registry)
    (max_height chunk_min_x chunk_min_z : Int) :
    List RawSection → Chunk → List (String × Nat) → Chunk × List (String × Nat)
  | [], c, cache => (c, cache)
  | s :: rest, c, cache =>
    let r := process_section stage registry max_height chunk_min_x chunk_min_z cache s
    run_sections stage registry max_height chunk_min_x chunk_min_z rest
      (apply_writes c r.1) r.2

/-- Models `read_exact` after a seek: the `len` bytes of the file
starting at `pos`, or `none` when the file is too short. -/
def read_exact (f : List Nat) (pos len : Nat) : Option (List Nat) :=
  if pos + len ≤ f.length then some ((f.drop pos).take len) else none

/-- Models `BigEndian::read_u32` on a 4-byte slice. -/
def read_u32_be (bytes : List Nat) : Nat :=
  ((bytes.getD 0 0 * 256 + bytes.getD 1 0) * 256 + bytes.getD 2 0) * 256 + bytes.getD 3 0

/-- Embeds the header-slot index `local_z * REGION_SIZE + local_x`
(minecraft.rs, line 199). -/
def slot_index (chunk_x chunk_z : Int) : Nat :=
  ((split_region_coord chunk_z).2 * REGION_SIZE + (split_region_coord chunk_x).2).toNat

/-- Embeds reading the chunk's 32-bit location word out of the 4096-byte
header table (minecraft.rs, lines 196-200). -/
def slot_location (f : List Nat) (chunk_x chunk_z : Int) : Option Nat :=
  (read_exact f 0 4096).map fun header =>
    read_u32_be ((header.drop (slot_index chunk_x chunk_z * 4)).take 4)

/-- Embeds reading the 4-byte big-endian record length at the record's
sector offset (minecraft.rs, lines 215-217). -/
def record_length (f : List Nat) (offset : Nat) : Option Nat :=
  (read_exact f offset 4).map read_u32_be

/-- Embeds reading the 1-byte compression scheme that follows the
length (minecraft.rs, lines 223-224). -/
def compression_byte (f : List Nat) (offset : Nat) : Option Nat :=
  (read_exact f (offset + 4) 1).map fun bytes => bytes.getD 0 0

/-- Embeds `MinecraftAnvilStage::load_chunk` (minecraft.rs,
lines 186-252). The region file is an optional byte list (`none` models
a missing or unopenable file), and the gzip and zlib decompressors and
the NBT parser of the external crates are abstract parameters. Every
absent-data condition returns `none`. -/
def load_chunk (gzip_decode zlib_decode : List Nat → Option (List Nat))
    (parse_chunk : List Nat → Option RawChunk) (file : Option (List Nat))
    (chunk_x chunk_z : Int) : Option RawChunk :=
  match file with
  | none => none
  | some f =>
    match slot_location f chunk_x chunk_z with
    | none => none
    | some location =>
      if location = 0 then none
      else
        let offset := (location >>> 8) * 4096
        let sectors := location &&& 0xFF
        if offset = 0 ∨ sectors = 0 then none
        else
          match record_length f offset with
          | none => none
          | some length =>
            if length = 0 ∨ sectors * 4096 < length then none
            else
              match compression_byte f offset with
              | none => none
              | some compression =>
                match read_exact f (offset + 5) (length - 1) with
                | none => none
                | some payload =>
                  match
                    (if compression = 1 then gzip_decode payload
                     else if compression = 2 then zlib_decode payload
                     else none) with
                  | none => none
                  | some decompressed => parse_chunk decompressed

/-- Embeds `MinecraftAnvilStage::process` (minecraft.rs, lines 260-324):
load the raw chunk record for the chunk's coordinates; when no data is
available return the chunk unmodified, otherwise import every section.
The returned pair also carries the resolver cache the stage instance
keeps across chunks. -/
def process (gzip_decode zlib_decode : List Nat → Option (List Nat))
    (parse_chunk : List Nat → Option RawChunk) (file : Option (List Nat))
    (stage : MinecraftAnvilStage) (registry : Registry) (max_height : Int)
    (chunk : Chunk) (cache : List (String × Nat)) : Chunk × List (String × Nat) :=
  match load_chunk gzip_decode zlib_decode parse_chunk file chunk.coords.1 chunk.coords.2 with
  | none => (chunk, cache)
  | some raw_chunk =>
    run_sections stage registry max_height chunk.min.1 chunk.min.2.2
      raw_chunk.into_sections chunk cache

/-- Any write emitted by the per-index body has its height inside
`[0, max_height)`. -/
theorem write_of_index_bounds (max_height chunk_min_x chunk_min_z base : Int)
    (palette_ids : List Nat) (p : Nat × Nat) (w : VoxelWrite)
    (h : write_of_index max_height chunk_min_x chunk_min_z base palette_ids p = some w) :
    0 ≤ w.y ∧ w.y < max_height := by
  rw [write_of_index] at h
  split at h
  · exact absurd h (by simp)
  · split at h
    · exact absurd h (by simp)
    · dsimp only at h
      split at h
      · exact absurd h (by simp)
      · rename_i hbid hy
        obtain rfl : _ = w := Option.some.injEq _ _ ▸ h
        push_neg at hy
        dsimp only
        exact ⟨hy.1, hy.2⟩

/-- Any write emitted by one section iteration has its height inside
`[0, max_height)`. -/
theorem process_section_bounds (stage : MinecraftAnvilStage) (registry : Registry)
    (max_height chunk_min_x chunk_min_z : Int) (cache : List (String × Nat))
    (s : RawSection) (w : VoxelWrite)
    (h : w ∈ (process_section stage registry max_height chunk_min_x chunk_min_z cache s).1) :
    0 ≤ w.y ∧ w.y < max_height := by
  rw [process_section] at h
  split at h
  · exact absurd h (by simp)
  · split at h
    · exact absurd h (by simp)
    · dsimp only at h
      split at h
      · exact absurd h (by simp)
      · split at h
        · exact absurd h (by simp)
        · simp only [List.mem_filterMap] at h
          obtain ⟨p, _, hp⟩ := h
          exact write_of_index_bounds _ _ _ _ _ _ _ hp

/-- Membership in the voxel log after applying a write list. -/
theorem apply_writes_mem (w : VoxelWrite) :
    ∀ (ws : List VoxelWrite) (c : Chunk),
      w ∈ (apply_writes c ws).voxels → w ∈ ws ∨ w ∈ c.voxels := by
  intro ws
  induction ws with
  | nil => intro c h; exact Or.inr h
  | cons head rest ih =>
    intro c h
    rcases ih (c.set_voxel head) h with hrest | hset
    · exact Or.inl (List.mem_cons_of_mem _ hrest)
    · rcases List.mem_cons.mp hset with heq | hc
      · exact Or.inl (heq ▸ List.mem_cons_self _ _)
      · exact Or.inr hc

/-- Every voxel in the chunk produced by the section loop was either
present before or respects the vertical bounds. -/
theorem run_sections_mem (stage : MinecraftAnvilStage) (registry : Registry)
    (max_height chunk_min_x chunk_min_z : Int) :
    ∀ (sections : List RawSection) (c : Chunk) (cache : List (String × Nat))
      (w : VoxelWrite),
      w ∈ (run_sections stage registry max_height chunk_min_x chunk_min_z
            sections c cache).1.voxels →
      w ∈ c.voxels ∨ (0 ≤ w.y ∧ w.y < max_height) := by
  intro sections
  induction sections with
  | nil => intro c cache w h; exact Or.inl h
  | cons s rest ih =>
    intro c cache w h
    rw [run_sections] at h
    rcases ih _ _ w h with hc | hb
    · rcases apply_writes_mem w _ c hc with hw | hold
      · exact Or.inr (process_section_bounds _ _ _ _ _ _ _ w hw)
      · exact Or.inl hold
    · exact Or.inr hb

/-- C8: (1) a section whose vertical span `[base_y, base_y + 15]` lies
entirely at or above `max_height` (`max_height ≤ base_y`) or entirely
below 0 (`base_y + 15 < 0`) emits no voxel writes at all; (2) every
voxel present after `process` either was present before or has its
world height in `[0, max_height)`. -/
theorem process_vertical_bounds :
    (∀ (stage : MinecraftAnvilStage) (registry : Registry)
        (max_height chunk_min_x chunk_min_z : Int) (cache : List (String × Nat))
        (s : RawSection),
        (max_height ≤ section_base_y stage s ∨ section_base_y stage s + 15 < 0) →
        (process_section stage registry max_height chunk_min_x chunk_min_z cache s).1
          = []) ∧
      (∀ (gzip_decode zlib_decode : List Nat → Option (List Nat))
          (parse_chunk : List Nat → Option RawChunk) (file : Option (List Nat))
          (stage : MinecraftAnvilStage) (registry : Registry) (max_height : Int)
          (chunk : Chunk) (cache : List (String × Nat)) (w : VoxelWrite),
          w ∈ (process gzip_decode zlib_decode parse_chunk file stage registry
                max_height chunk cache).1.voxels →
          w ∈ chunk.voxels ∨ (0 ≤ w.y ∧ w.y < max_height)) := by
  constructor
  · intro stage registry max_height chunk_min_x chunk_min_z cache s h
    rw [process_section]
    split
    · rfl
    · rename_i palette _
      by_cases hp : palette = []
      · rw [if_pos hp]
      · rw [if_neg hp, if_pos h]
  · intro gzip_decode zlib_decode parse_chunk file stage registry max_height
      chunk cache w hw
    rw [process] at hw
    split at hw
    · exact Or.inl hw
    · exact run_sections_mem _ _ _ _ _ _ _ _ w hw

/-- C8 witness: a section at `Y = 100` with `max_height = 256` is
culled, and with no imported data the only voxel present after
`process` is the pre-existing one. -/
theorem process_vertical_bounds_witness :
    (process_section
        { mapping := fun _ => none, default_block := 9, y_offset := 0 }
        { blocks_by_name := fun _ => none } 256 0 0 []
        { y := 100, block_states := none, block_states_upper := none,
          palette := some [{ name := "minecraft:stone" }], palette_upper := none }).1
      = [] ∧
      (({ x := 1, y := 2, z := 3, id := 4 } : VoxelWrite) ∈
          ({ coords := (0, 0), min := (0, 0, 0),
             voxels := [{ x := 1, y := 2, z := 3, id := 4 }] } : Chunk).voxels ∨
        (0 ≤ (2 : Int) ∧ (2 : Int) < 5)) := by
  refine ⟨process_vertical_bounds.1 _ _ 256 0 0 [] _ (by decide), ?_⟩
  exact process_vertical_bounds.2 (fun _ => none) (fun _ => none) (fun _ => none)
    none { mapping := fun _ => none, default_block := 9, y_offset := 0 }
    { blocks_by_name := fun _ => none } 5
    { coords := (0, 0), min := (0, 0, 0),
      voxels := [{ x := 1, y := 2, z := 3, id := 4 }] } []
    { x := 1, y := 2, z := 3, id := 4 } (by decide)

/-- C9: every absent-data condition leaves the destination chunk (and
cache) unchanged: (1) a missing or unopenable region file; (2) a zero
header-table slot; (3) a zero or over-long record length; (4) an
unsupported compression scheme byte; (5) a parse failure of the
decompressed record. Conditions (2)-(5) are stated on `load_chunk`,
which conjunct (6) ties to `process` returning the chunk unchanged. -/
theorem process_absent_data_unchanged :
    (∀ (gzip_decode zlib_decode : List Nat → Option (List Nat))
        (parse_chunk : List Nat → Option RawChunk) (stage : MinecraftAnvilStage)
        (registry : Registry) (max_height : Int) (chunk : Chunk)
        (cache : List (String × Nat)),
        process gzip_decode zlib_decode parse_chunk none stage registry max_height
            chunk cache
          = (chunk, cache)) ∧
      (∀ gzip_decode zlib_decode parse_chunk (f : List Nat) (chunk_x chunk_z : Int),
          slot_location f chunk_x chunk_z = some 0 →
          load_chunk gzip_decode zlib_decode parse_chunk (some f) chunk_x chunk_z
            = none) ∧
      (∀ gzip_decode zlib_decode parse_chunk (f : List Nat) (chunk_x chunk_z : Int)
          (location length : Nat),
          slot_location f chunk_x chunk_z = some location →
          record_length f ((location >>> 8) * 4096) = some length →
          (length = 0 ∨ (location &&& 0xFF) * 4096 < length) →
          load_chunk gzip_decode zlib_decode parse_chunk (some f) chunk_x chunk_z
            = none) ∧
      (∀ gzip_decode zlib_decode parse_chunk (f : List Nat) (chunk_x chunk_z : Int)
          (location compression : Nat),
          slot_location f chunk_x chunk_z = some location →
          compression_byte f ((location >>> 8) * 4096) = some compression →
          compression ≠ 1 → compression ≠ 2 →
          load_chunk gzip_decode zlib_decode parse_chunk (some f) chunk_x chunk_z
            = none) ∧
      (∀ gzip_decode zlib_decode (parse_chunk : List Nat → Option RawChunk)
          (f : List Nat) (chunk_x chunk_z : Int),
          (∀ d, parse_chunk d = none) →
          load_chunk gzip_decode zlib_decode parse_chunk (some f) chunk_x chunk_z
            = none) ∧
      (∀ gzip_decode zlib_decode parse_chunk (file : Option (List Nat))
          (stage : MinecraftAnvilStage) (registry : Registry) (max_height : Int)
          (chunk : Chunk) (cache : List (String × Nat)),
          load_chunk gzip_decode zlib_decode parse_chunk file chunk.coords.1
              chunk.coords.2
            = none →
          process gzip_decode zlib_decode parse_chunk file stage registry max_height
              chunk cache
            = (chunk, cache)) := by
  refine ⟨?_, ?_, ?_, ?_, ?_, ?_⟩
  · intro gzip_decode zlib_decode parse_chunk stage registry max_height chunk cache
    rfl
  · intro gzip_decode zlib_decode parse_chunk f chunk_x chunk_z h
    simp [load_chunk, h]
  · intro gzip_decode zlib_decode parse_chunk f chunk_x chunk_z location length
      h1 h2 h3
    rw [load_chunk]
    simp only [h1]
    split_ifs with hl0 hos
    · rfl
    · rfl
    · simp only [h2]
      rw [if_pos h3]
  · intro gzip_decode zlib_decode parse_chunk f chunk_x chunk_z location compression
      h1 h2 h3 h4
    rw [load_chunk]
    simp only [h1]
    split_ifs with hl0 hos
    · rfl
    · rfl
    · split
      · rfl
      · split_ifs with hlen
        · rfl
        · simp only [h2]
          split
          · rfl
          · rw [if_neg h3, if_neg h4]
  · intro gzip_decode zlib_decode parse_chunk f chunk_x chunk_z hp
    rw [load_chunk]
    dsimp only
    split
    · rfl
    · split_ifs with hl0 hos
      · rfl
      · rfl
      · split
        · rfl
        · split_ifs with hlen
          · rfl
          · split
            · rfl
            · split
              · rfl
              · split
                · rfl
                · apply hp
  · intro gzip_decode zlib_decode parse_chunk file stage registry max_height chunk
      cache h
    rw [process]
    simp only [h]

/-- C9 witness: with a missing region file the loader yields no data,
and `process` returns the chunk and cache unchanged. -/
theorem process_absent_data_unchanged_witness :
    process (fun _ => none) (fun _ => none) (fun _ => none) none
        { mapping := fun _ => none, default_block := 9, y_offset := 0 }
        { blocks_by_name := fun _ => none } 5
        { coords := (0, 0), min := (0, 0, 0), voxels := [] } []
      = ({ coords := (0, 0), min := (0, 0, 0), voxels := [] }, []) :=
  process_absent_data_unchanged.2.2.2.2.2 (fun _ => none) (fun _ => none)
    (fun _ => none) none
    { mapping := fun _ => none, default_block := 9, y_offset := 0 }
    { blocks_by_name := fun _ => none } 5
    { coords := (0, 0), min := (0, 0, 0), voxels := [] } [] rfl
